import Mathlib

/-!
Shallow embedding of the job life-cycle client of quri-parts-oqtopus:
job polling (`wait_for_completion`), result decoding for sampling and
estimation jobs, job submission validation, the OpenQASM measure patch,
and the presigned-URL storage helper.  Python dicts are modelled as
association lists, machine floats used for times as rationals, and
fallible Python code as `Except`-valued functions.  External libraries
(json, zipfile) are modelled as explicit parser parameters where their
output shape matters.
-/

set_option autoImplicit false

/-- Key of a decoded Python mapping: either a string key or an integer key,
as they occur in job-result counts dictionaries. -/
inductive SKey where
  | str (s : String)
  | int (n : Int)
deriving DecidableEq

/-- Error kinds raised by the Python client code: BackendError, ValueError,
KeyError and json.JSONDecodeError. -/
inductive PyErr where
  | backendError (msg : String)
  | valueError (msg : String)
  | keyError (key : String)
  | jsonDecodeError
deriving DecidableEq

/-- Value of one binary digit character, none for any other character. -/
def binDigit (c : Char) : Option Nat :=
  if c = '0' then some 0 else if c = '1' then some 1 else none

/-- Horner accumulation over a list of binary digit characters. -/
def binValAux : Nat → List Char → Option Nat
  | acc, [] => some acc
  | acc, c :: cs =>
    match binDigit c with
    | some d => binValAux (2 * acc + d) cs
    | none => none

/-- Model of Python int(s, 2) on plain binary-digit strings: fails on the
empty string and on any character other than 0 or 1. -/
def intBase2 (s : String) : Option Nat :=
  if s.data.isEmpty then none else binValAux 0 s.data

/-- Value of one decimal digit character, none for any other character. -/
def decDigit (c : Char) : Option Nat :=
  if '0' ≤ c ∧ c ≤ '9' then some (c.toNat - '0'.toNat) else none

/-- Horner accumulation over a list of decimal digit characters. -/
def decValAux : Nat → List Char → Option Nat
  | acc, [] => some acc
  | acc, c :: cs =>
    match decDigit c with
    | some d => decValAux (10 * acc + d) cs
    | none => none

/-- Model of Python int(s) on plain decimal-digit strings: fails on the
empty string and on any non-digit character. -/
def intBase10 (s : String) : Option Nat :=
  if s.data.isEmpty then none else decValAux 0 s.data

/-- Key decoding performed in OqtopusSamplingJob.result: a string key is
parsed as a base-2 integer with int(bits, 2), an integer key passes through
unchanged. -/
def decodeKey : SKey → Except PyErr Int
  | .str s =>
    match intBase2 s with
    | some n => Except.ok (n : Int)
    | none => Except.error (PyErr.valueError ("invalid literal for int with base 2: " ++ s))
  | .int n => Except.ok n

/-- Model of Python int(x) applied to a dict key: an integer passes through,
a string is parsed base 10.  Used for divided_counts indices in
OqtopusSamplingJob.result and for inner keys in
OqtopusSamplingResult.__init__. -/
def intOfKey : SKey → Except PyErr Int
  | .str s =>
    match intBase10 s with
    | some n => Except.ok (n : Int)
    | none => Except.error (PyErr.valueError ("invalid literal for int with base 10: " ++ s))
  | .int n => Except.ok n

/-- Entrywise traversal of a Python dict comprehension that can raise: the
first failing entry aborts the whole comprehension with its error. -/
def mapExcept {α β : Type} (f : α → Except PyErr β) : List α → Except PyErr (List β)
  | [] => Except.ok []
  | a :: rest =>
    match f a with
    | .error e => .error e
    | .ok b =>
      match mapExcept f rest with
      | .error e => .error e
      | .ok r => .ok (b :: r)

/-- Decoding of one counts entry in OqtopusSamplingJob.result: the key goes
through int(bits, 2) for strings, the count is kept. -/
def decodeEntry (e : SKey × Int) : Except PyErr (Int × Int) := do
  let k2 ← decodeKey e.1
  Except.ok (k2, e.2)

/-- Key-by-key decoding of a counts mapping with int(bits, 2) on string
keys, as in the dict comprehension of OqtopusSamplingJob.result. -/
def decodeEntries (m : List (SKey × Int)) : Except PyErr (List (Int × Int)) :=
  mapExcept decodeEntry m

/-- Decoding of one divided_counts entry in OqtopusSamplingJob.result: the
index is converted with int(index) and the inner mapping with the same
base-2 key decoding as the top-level counts. -/
def decodeDividedEntry (e : SKey × List (SKey × Int)) :
    Except PyErr (Int × List (Int × Int)) := do
  let i ← intOfKey e.1
  let m ← decodeEntries e.2
  Except.ok (i, m)

/-- Decoding of the whole divided_counts mapping in
OqtopusSamplingJob.result. -/
def decodeDivided (d : List (SKey × List (SKey × Int))) :
    Except PyErr (List (Int × List (Int × Int))) :=
  mapExcept decodeDividedEntry d

/-- The counts field as it arrives in a job record: either a JSON-encoded
string or an already-parsed mapping. -/
abbrev CountsRaw := Sum String (List (SKey × Int))

/-- The divided_counts field as it arrives: either a JSON-encoded string or
an already-parsed mapping from index to inner counts mapping. -/
abbrev DividedRaw := Sum String (List (SKey × List (SKey × Int)))

/-- The job_info result sampling sub-dictionary of a job record; a missing
counts key is modelled as none. -/
structure SamplingPayloadDict where
  counts : Option CountsRaw
  divided_counts : Option DividedRaw
deriving DecidableEq

/-- Fully decoded sampling payload: integer keys throughout. -/
structure DecodedSampling where
  counts : List (Int × Int)
  divided_counts : Option (List (Int × List (Int × Int)))
deriving DecidableEq

/-- Truthiness of the Python expression result.get("divided_counts"): false
for a missing key, an empty string or an empty mapping. -/
def dividedTruthy : Option DividedRaw → Bool
  | none => false
  | some (.inl s) => !s.data.isEmpty
  | some (.inr m) => !m.isEmpty

/-- Decode pipeline of OqtopusSamplingJob.result for the sampling payload
(source lines 143-161): resolve a JSON-encoded counts string through the
external json parser, decode keys base 2, then do the same for the optional
divided_counts breakdown.  The json parsers are parameters because parsing
is performed by the external json library; none models a
json.JSONDecodeError. -/
def decodeSamplingPayload
    (parseCounts : String → Option (List (SKey × Int)))
    (parseDivided : String → Option (List (SKey × List (SKey × Int))))
    (p : SamplingPayloadDict) : Except PyErr DecodedSampling := do
  let rawCounts ←
    match p.counts with
    | none => Except.error (PyErr.keyError ("counts"))
    | some (.inl s) =>
      match parseCounts s with
      | some m => Except.ok m
      | none => Except.error PyErr.jsonDecodeError
    | some (.inr m) => Except.ok m
  let counts ← decodeEntries rawCounts
  if dividedTruthy p.divided_counts then
    let rawDiv ←
      match p.divided_counts with
      | some (.inl s) =>
        match parseDivided s with
        | some m => Except.ok m
        | none => Except.error PyErr.jsonDecodeError
      | some (.inr m) => Except.ok m
      | none => Except.error (PyErr.keyError ("divided_counts"))
    let d ← decodeDivided rawDiv
    Except.ok { counts := counts, divided_counts := some d }
  else
    Except.ok { counts := counts, divided_counts := none }

/-- Raw result dict handed directly to the OqtopusSamplingResult
constructor; a missing counts key is modelled as none. -/
structure ResultDict where
  counts : Option (List (SKey × Int))
  divided_counts : Option (List (SKey × List (SKey × Int)))
deriving DecidableEq

/-- State of a constructed OqtopusSamplingResult: the counts mapping with
its keys kept as given, and the optional divided_counts breakdown whose
inner keys have been converted with int(bits). -/
structure OqtopusSamplingResultState where
  counts : List (SKey × Int)
  divided_counts : Option (List (SKey × List (Int × Int)))
deriving DecidableEq

/-- Conversion of one inner entry in OqtopusSamplingResult.__init__:
int(bits) is applied to the key (base-10 parsing for string keys,
pass-through for integer keys), the count is kept. -/
def initInnerEntry (e : SKey × Int) : Except PyErr (Int × Int) := do
  let k2 ← intOfKey e.1
  Except.ok (k2, e.2)

/-- Inner-key conversion of OqtopusSamplingResult.__init__ over one
divided_counts inner mapping. -/
def initInner (m : List (SKey × Int)) : Except PyErr (List (Int × Int)) :=
  mapExcept initInnerEntry m

/-- Conversion of one divided_counts entry in
OqtopusSamplingResult.__init__: the index is kept as given, the inner keys
converted with int(bits). -/
def initDividedEntry (e : SKey × List (SKey × Int)) :
    Except PyErr (SKey × List (Int × Int)) := do
  let m ← initInner e.2
  Except.ok (e.1, m)

/-- Conversion of the whole divided_counts mapping in
OqtopusSamplingResult.__init__. -/
def initDivided (d : List (SKey × List (SKey × Int))) :
    Except PyErr (List (SKey × List (Int × Int))) :=
  mapExcept initDividedEntry d

/-- Model of OqtopusSamplingResult.__init__ (data/sampling.py lines
57-74): raise ValueError when counts is missing, wrap the counts mapping
with its keys unchanged, and when divided_counts is present and truthy
convert each inner key with int(bits), keeping the outer index as given. -/
def samplingResultInit (r : ResultDict) : Except PyErr OqtopusSamplingResultState :=
  match r.counts with
  | none => Except.error (PyErr.valueError ("counts does not exist in result"))
  | some cs => do
    let dv ←
      match r.divided_counts with
      | some d =>
        if d.isEmpty then Except.ok none
        else do
          let d2 ← initDivided d
          Except.ok (some d2)
      | none => Except.ok none
    Except.ok { counts := cs, divided_counts := dv }

/-- The estimation sub-dictionary of a job result: the two optional numeric
fields read by OqtopusEstimationResult. -/
structure EstimationDict where
  exp_value : Option ℚ
  stds : Option ℚ
deriving DecidableEq

/-- State of a constructed OqtopusEstimationResult: a plain wrapper around
the estimation dictionary. -/
structure OqtopusEstimationResultState where
  result : EstimationDict
deriving DecidableEq

/-- The result section of job_info, with the sampling and estimation keys
modelled as options (none means the key is absent). -/
structure ResultSection where
  sampling : Option SamplingPayloadDict
  estimation : Option EstimationDict
deriving DecidableEq

/-- The job_info dictionary of a job record. -/
structure JobsJobInfoDict where
  result : Option ResultSection
deriving DecidableEq

/-- A job record as held by OqtopusJobBase: the fields the verified client
logic reads. -/
structure JobsJobDef where
  job_id : String
  status : String
  job_info : JobsJobInfoDict
deriving DecidableEq

/-- Terminal statuses of a job (job_base.py line 17). -/
def JOB_FINAL_STATUS : List String := ["succeeded", "failed", "cancelled"]

/-- Check of the failed/cancelled branch shared by
OqtopusSamplingJob.result and OqtopusEstimationJob.result: a terminal but
unsuccessful status raises BackendError carrying the status. -/
def resultStatusCheck (job : JobsJobDef) : Except PyErr JobsJobDef :=
  if job.status = "failed" ∨ job.status = "cancelled" then
    Except.error (PyErr.backendError ("Job ended with status " ++ job.status ++ "."))
  else Except.ok job

/-- Wait-and-check phase shared by both result methods (sampling.py lines
133-141, estimation.py lines 103-111).  When the current status is not
terminal the outcome of wait_for_completion is consulted: none is the
timeout sentinel and raises BackendError; otherwise the returned record
replaces the current one.  timeoutRepr is the string rendering of the
timeout argument used in the message. -/
def resultWaitPhase (job0 : JobsJobDef) (wfcOutcome : Option JobsJobDef)
    (timeoutRepr : String) : Except PyErr JobsJobDef :=
  if job0.status ∈ JOB_FINAL_STATUS then resultStatusCheck job0
  else
    match wfcOutcome with
    | none =>
      Except.error (PyErr.backendError
        ("Timeout occurred after " ++ timeoutRepr ++ " seconds."))
    | some j => resultStatusCheck j

/-- Re-embedding of a fully decoded sampling payload as the raw dict handed
to the OqtopusSamplingResult constructor at the end of
OqtopusSamplingJob.result (all keys are integers at that point). -/
def decodedToResultDict (d : DecodedSampling) : ResultDict :=
  { counts := some (d.counts.map (fun e => (SKey.int e.1, e.2))),
    divided_counts := d.divided_counts.map
      (fun l => l.map (fun e =>
        (SKey.int e.1, e.2.map (fun x => (SKey.int x.1, x.2))))) }

/-- Model of OqtopusSamplingJob.result after the polling phase: status
gate, lookup of job_info result sampling, key decoding, and construction
of the OqtopusSamplingResult. -/
def samplingJobResult
    (parseCounts : String → Option (List (SKey × Int)))
    (parseDivided : String → Option (List (SKey × List (SKey × Int))))
    (job0 : JobsJobDef) (wfcOutcome : Option JobsJobDef)
    (timeoutRepr : String) : Except PyErr OqtopusSamplingResultState := do
  let job ← resultWaitPhase job0 wfcOutcome timeoutRepr
  let rs ←
    match job.job_info.result with
    | none => Except.error (PyErr.keyError ("result"))
    | some rs => Except.ok rs
  let payload ←
    match rs.sampling with
    | none => Except.error (PyErr.keyError ("sampling"))
    | some p => Except.ok p
  let decoded ← decodeSamplingPayload parseCounts parseDivided payload
  samplingResultInit (decodedToResultDict decoded)

/-- Model of OqtopusEstimationJob.result after the polling phase: status
gate, lookup of job_info result estimation, and construction of the
OqtopusEstimationResult wrapper. -/
def estimationJobResult (job0 : JobsJobDef) (wfcOutcome : Option JobsJobDef)
    (timeoutRepr : String) : Except PyErr OqtopusEstimationResultState := do
  let job ← resultWaitPhase job0 wfcOutcome timeoutRepr
  let rs ←
    match job.job_info.result with
    | none => Except.error (PyErr.keyError ("result"))
    | some rs => Except.ok rs
  let ed ←
    match rs.estimation with
    | none => Except.error (PyErr.keyError ("estimation"))
    | some e => Except.ok e
  Except.ok { result := ed }

/-- Fuel-indexed model of the polling loop of
OqtopusJobBase.wait_for_completion (job_base.py lines 241-270).  poll k is
the record obtained by the k-th refresh (k = 0 is the refresh before the
loop); elapsed k is the wall-clock time elapsed since start observed at the
k-th timeout check; the sleep between polls is reflected in the growth of
elapsed.  The result is none when the fuel runs out, some none for the
timeout sentinel, and some (some job) for a terminal record. -/
def waitLoop (poll : Nat → JobsJobDef) (elapsed : Nat → ℚ)
    (timeout : Option ℚ) : Nat → Nat → Option (Option JobsJobDef)
  | 0, _ => none
  | fuel + 1, k =>
    if (poll k).status ∈ JOB_FINAL_STATUS then some (some (poll k))
    else
      match timeout with
      | some t =>
        if t ≤ elapsed k then some none
        else waitLoop poll elapsed timeout fuel (k + 1)
      | none => waitLoop poll elapsed timeout fuel (k + 1)

/-- Entry point of the polling loop: start at the initial refresh. -/
def wait_for_completion (poll : Nat → JobsJobDef) (elapsed : Nat → ℚ)
    (timeout : Option ℚ) (fuel : Nat) : Option (Option JobsJobDef) :=
  waitLoop poll elapsed timeout fuel 0

/-- Model of OqtopusJobBase.refresh (job_base.py lines 227-239): the state
transition on the held record together with the raised error, given the
outcome of the remote get_job call.  On success the record is replaced
wholesale; on any exception a BackendError is raised and the record keeps
its previous value. -/
def refresh (job : JobsJobDef) (api : Except String JobsJobDef) :
    JobsJobDef × Option PyErr :=
  match api with
  | .ok j => (j, none)
  | .error _ => (job, some (PyErr.backendError ("To refresh job is failed.")))


/-- A coefficient of an operator term as seen by the Python isinstance
check: either a plain real number (int or float) or a complex number with
real and imaginary part. -/
inductive PyCoeff where
  | real (r : ℚ)
  | complexNum (re im : ℚ)
deriving DecidableEq

/-- One encoded operator item of the submission request. -/
structure JobsOperatorItem where
  pauli : String
  coeff : ℚ
deriving DecidableEq

/-- The submission request body built by sample_qasm and estimate_qasm.
The free-form info maps are modelled as association lists. -/
structure JobsSubmitJobRequest where
  name : Option String
  description : Option String
  device_id : String
  job_type : String
  program : Sum String (List String)
  operator : Option (List JobsOperatorItem)
  transpiler_info : List (String × String)
  simulator_info : List (String × String)
  mitigation_info : List (String × String)
  shots : Int
deriving DecidableEq

/-- Real part written into the request for a coefficient that passes the
imaginary-part check. -/
def coeffReal : PyCoeff → ℚ
  | .real r => r
  | .complexNum re _ => re

/-- Operator encoding loop of OqtopusEstimationBackend.estimate_qasm
(estimation.py lines 151-169): each (pauli, coeff) pair becomes a
JobsOperatorItem; a complex coefficient with non-zero imaginary part
raises ValueError at its position. -/
def encodeOperator : List (String × PyCoeff) → Except PyErr (List JobsOperatorItem)
  | [] => Except.ok []
  | (p, c) :: rest =>
    match c with
    | .complexNum re im =>
      if im ≠ 0 then
        Except.error (PyErr.valueError ("Complex numbers are not supported in coefficient"))
      else do
        let r ← encodeOperator rest
        Except.ok ({ pauli := p, coeff := re } :: r)
    | .real v => do
      let r ← encodeOperator rest
      Except.ok ({ pauli := p, coeff := v } :: r)

/-- Model of OqtopusSamplingBackend.sample_qasm up to the request body it
submits (sampling.py lines 177-268): the shots check comes first, then the
job-type inference and wrapping of a single program into a list, then the
defaulting of the info maps.  An error value means no request body was
built and nothing was submitted. -/
def sample_qasm (program : Sum String (List String)) (device_id : String)
    (shots : Int) (name description : Option String)
    (transpiler_info simulator_info mitigation_info : Option (List (String × String)))
    (job_type : Option String) : Except PyErr JobsSubmitJobRequest :=
  if ¬ shots ≥ 1 then
    Except.error (PyErr.valueError ("shots should be a positive integer.: " ++ toString shots))
  else
    let jtProg : String × Sum String (List String) :=
      match job_type, program with
      | none, .inl p => ("sampling", Sum.inr [p])
      | none, .inr ps => ("multi_manual", Sum.inr ps)
      | some jt, p => (jt, p)
    Except.ok
      { name := name, description := description, device_id := device_id,
        job_type := jtProg.1, program := jtProg.2, operator := none,
        transpiler_info := transpiler_info.getD [],
        simulator_info := simulator_info.getD [],
        mitigation_info := mitigation_info.getD [],
        shots := shots }

/-- Model of OqtopusEstimationBackend.estimate_qasm up to the request body
it submits (estimation.py lines 96-189): the shots check comes first, then
the operator encoding; an encoding failure happens before any request body
exists, so no job is submitted. -/
def estimate_qasm (program : String) (operator : List (String × PyCoeff))
    (device_id : String) (shots : Int) (name description : Option String)
    (transpiler_info simulator_info mitigation_info : Option (List (String × String))) :
    Except PyErr JobsSubmitJobRequest :=
  if ¬ shots ≥ 1 then
    Except.error (PyErr.valueError ("shots should be a positive integer.: " ++ toString shots))
  else do
    let ops ← encodeOperator operator
    Except.ok
      { name := name, description := description, device_id := device_id,
        job_type := "estimation", program := Sum.inr [program],
        operator := some ops,
        transpiler_info := transpiler_info.getD [],
        simulator_info := simulator_info.getD [],
        mitigation_info := mitigation_info.getD [],
        shots := shots }

/-- Model of Python str.find restricted to a search that starts at running
index i over the remaining characters: the index of the first occurrence
of needle, none when absent. -/
def findSub (needle : List Char) : List Char → Nat → Option Nat
  | [], i => if needle.isEmpty then some i else none
  | c :: tl, i =>
    if needle.isPrefixOf (c :: tl) then some i else findSub needle tl (i + 1)

/-- Model of _convert_to_qasm_str_with_measure (sampling.py lines 271-290)
applied to the already-converted program text: when the text contains
"measure" it is returned unchanged; otherwise a bit declaration sized to
the qubit count is spliced in right after the first ";" that follows the
first "qubit", and a measure-all statement is appended. -/
def convert_to_qasm_str_with_measure (qasm : String) (qubit_count : Nat) : String :=
  if (findSub ("measure").data qasm.data 0).isSome then qasm
  else
    let qasm1 :=
      match findSub ("qubit").data qasm.data 0 with
      | none => qasm
      | some qi =>
        match findSub [';'] (qasm.data.drop qi) qi with
        | none => qasm
        | some si =>
          String.mk (qasm.data.take (si + 1))
            ++ "\nbit[" ++ toString qubit_count ++ "] c;"
            ++ String.mk (qasm.data.drop (si + 1))
    qasm1 ++ "\nc = measure q;"

/-- Error raised by the OqtopusStorage helper. -/
structure OqtopusStorageError where
  msg : String
deriving DecidableEq

/-- A JSON value as produced by json.loads, with the Python type name of
each shape. -/
inductive JVal where
  | null
  | bool (b : Bool)
  | intNum (n : Int)
  | str (s : String)
  | arr (xs : List JVal)
  | obj (fields : List (String × JVal))

/-- Python type name of a decoded JSON value, as printed by the wrong-shape
message. -/
def JVal.typeName : JVal → String
  | .null => "NoneType"
  | .bool _ => "bool"
  | .intNum _ => "int"
  | .str _ => "str"
  | .arr _ => "list"
  | .obj _ => "dict"

/-- Model of OqtopusStorage._extract_zip_object (storage.py lines 26-53),
with the external zip and json parsers as parameters: zipParse returns the
list of (name, content) entries of the archive or none on a BadZipFile,
and jsonParse returns the decoded JSON value or none on a
json.JSONDecodeError.  Exactly one entry must be present and its content
must decode to a JSON object; each failure cause carries its own
message. -/
def extract_zip_object (zipParse : String → Option (List (String × String)))
    (jsonParse : String → Option JVal) (zip_bytes : String) :
    Except OqtopusStorageError (List (String × JVal)) :=
  match zipParse zip_bytes with
  | none => Except.error { msg := "Invalid ZIP file" }
  | some [e] =>
    match jsonParse e.2 with
    | none => Except.error { msg := "Invalid JSON in ZIP file" }
    | some (.obj fields) => Except.ok fields
    | some v =>
      Except.error
        { msg := "Expected JSON root to be an object (dict) but got "
            ++ v.typeName ++ "." }
  | some entries =>
    Except.error
      { msg := "Expected one file in single ZIP archive, but found "
          ++ toString entries.length ++ "." }

theorem mapExcept_forall2 {α β : Type} (f : α → Except PyErr β) :
    ∀ (l : List α) (l2 : List β), mapExcept f l = Except.ok l2 →
      List.Forall₂ (fun a b => f a = Except.ok b) l l2 := by
  intro l
  induction l with
  | nil =>
    intro l2 h
    have h2 : Except.ok ([] : List β) = (Except.ok l2 : Except PyErr (List β)) := h
    cases h2
    exact List.Forall₂.nil
  | cons a rest ih =>
    intro l2 h
    rw [mapExcept] at h
    cases hfa : f a with
    | error e => rw [hfa] at h; cases h
    | ok b =>
      rw [hfa] at h
      cases hrest : mapExcept f rest with
      | error e => rw [hrest] at h; cases h
      | ok r =>
        rw [hrest] at h
        simp only [Except.ok.injEq] at h
        cases h
        exact List.Forall₂.cons hfa (ih r hrest)

theorem mapExcept_map_ok {α β : Type} (f : α → Except PyErr β) (h : α → β) :
    ∀ (l : List α), (∀ a ∈ l, f a = Except.ok (h a)) →
      mapExcept f l = Except.ok (l.map h) := by
  intro l
  induction l with
  | nil => intro _; rfl
  | cons a rest ih =>
    intro hall
    have ha : f a = Except.ok (h a) := hall a (List.mem_cons_self a rest)
    have hr : mapExcept f rest = Except.ok (rest.map h) :=
      ih (fun x hx => hall x (List.mem_cons_of_mem a hx))
    rw [mapExcept, ha, hr]
    rfl

theorem binDigit_cases {c : Char} {d : Nat} (h : binDigit c = some d) :
    (c = '0' ∧ d = 0) ∨ (c = '1' ∧ d = 1) := by
  unfold binDigit at h
  split at h
  · cases h; exact Or.inl ⟨by assumption, rfl⟩
  · split at h
    · cases h; exact Or.inr ⟨by assumption, rfl⟩
    · cases h

theorem binValAux_horner (cs : List Char) :
    ∀ acc : Nat, binValAux acc cs =
      (binValAux 0 cs).map (fun v => acc * 2 ^ cs.length + v) := by
  induction cs with
  | nil => intro acc; simp [binValAux]
  | cons c cs ih =>
    intro acc
    cases h : binDigit c with
    | none => simp [binValAux, h]
    | some d =>
      simp only [binValAux, h, Nat.mul_zero, Nat.zero_add]
      rw [ih (2 * acc + d), ih d]
      cases hv : binValAux 0 cs with
      | none => simp
      | some v =>
        simp only [Option.map_some']
        congr 1
        simp only [List.length_cons, pow_succ]
        ring

theorem binValAux_lt (cs : List Char) :
    ∀ v : Nat, binValAux 0 cs = some v → v < 2 ^ cs.length := by
  induction cs with
  | nil =>
    intro v h
    simp only [binValAux] at h
    cases h
    simp
  | cons c cs ih =>
    intro v h
    cases hc : binDigit c with
    | none => simp [binValAux, hc] at h
    | some d =>
      simp only [binValAux, hc] at h
      rw [show 2 * 0 + d = d by ring] at h
      rw [binValAux_horner cs d] at h
      cases hv : binValAux 0 cs with
      | none => rw [hv] at h; simp at h
      | some v1 =>
        rw [hv] at h
        simp only [Option.map_some', Option.some.injEq] at h
        have hb := ih v1 hv
        have hd : d ≤ 1 := by
          rcases binDigit_cases hc with ⟨_, h0⟩ | ⟨_, h1⟩ <;> omega
        have hpos : 0 < 2 ^ cs.length := Nat.pos_pow_of_pos _ (by norm_num)
        have : d * 2 ^ cs.length ≤ 2 ^ cs.length := by
          calc d * 2 ^ cs.length ≤ 1 * 2 ^ cs.length :=
                Nat.mul_le_mul_right _ hd
            _ = 2 ^ cs.length := one_mul _
        simp only [List.length_cons, pow_succ]
        omega

theorem binValAux_inj (cs : List Char) :
    ∀ (ds : List Char), cs.length = ds.length →
      ∀ v : Nat, binValAux 0 cs = some v → binValAux 0 ds = some v → cs = ds := by
  induction cs with
  | nil =>
    intro ds hlen v h1 h2
    cases ds with
    | nil => rfl
    | cons d ds => simp at hlen
  | cons c cs ih =>
    intro ds hlen v h1 h2
    cases ds with
    | nil => simp at hlen
    | cons d ds =>
      have hlen2 : cs.length = ds.length := by simpa using hlen
      cases hc : binDigit c with
      | none => simp [binValAux, hc] at h1
      | some a =>
        cases hd : binDigit d with
        | none => simp [binValAux, hd] at h2
        | some b =>
          simp only [binValAux, hc] at h1
          simp only [binValAux, hd] at h2
          rw [show 2 * 0 + a = a by ring] at h1
          rw [show 2 * 0 + b = b by ring] at h2
          rw [binValAux_horner cs a] at h1
          rw [binValAux_horner ds b] at h2
          cases hv1 : binValAux 0 cs with
          | none => rw [hv1] at h1; simp at h1
          | some v1 =>
            cases hv2 : binValAux 0 ds with
            | none => rw [hv2] at h2; simp at h2
            | some v2 =>
              rw [hv1] at h1
              rw [hv2] at h2
              simp only [Option.map_some', Option.some.injEq] at h1 h2
              have hb1 := binValAux_lt cs v1 hv1
              have hb2 := binValAux_lt ds v2 hv2
              rw [← hlen2] at h2 hb2
              have ha2 := binDigit_cases hc
              have hd2 := binDigit_cases hd
              have hveq : v1 = v2 ∧ a = b := by
                rcases ha2 with ⟨_, ha⟩ | ⟨_, ha⟩ <;>
                  rcases hd2 with ⟨_, hb⟩ | ⟨_, hb⟩
                · rw [ha] at h1; rw [hb] at h2
                  simp only [zero_mul, zero_add] at h1 h2
                  exact ⟨by omega, by rw [ha, hb]⟩
                · rw [ha] at h1; rw [hb] at h2
                  simp only [zero_mul, one_mul, zero_add] at h1 h2
                  exfalso; omega
                · rw [ha] at h1; rw [hb] at h2
                  simp only [zero_mul, one_mul, zero_add] at h1 h2
                  exfalso; omega
                · rw [ha] at h1; rw [hb] at h2
                  simp only [one_mul] at h1 h2
                  exact ⟨by omega, by rw [ha, hb]⟩
              have hcs : cs = ds := ih ds hlen2 v1 hv1 (by rw [hveq.1]; exact hv2)
              have hcd : c = d := by
                rcases ha2 with ⟨hce, ha⟩ | ⟨hce, ha⟩ <;>
                  rcases hd2 with ⟨hde, hb⟩ | ⟨hde, hb⟩
                · rw [hce, hde]
                · exfalso; rw [ha, hb] at hveq; exact absurd hveq.2 (by norm_num)
                · exfalso; rw [ha, hb] at hveq; exact absurd hveq.2 (by norm_num)
                · rw [hce, hde]
              rw [hcs, hcd]

theorem except_bind_ok {ε α β : Type} (a : α) (f : α → Except ε β) :
    (Except.ok a >>= f : Except ε β) = f a := rfl

theorem except_bind_error {ε α β : Type} (e : ε) (f : α → Except ε β) :
    (Except.error e >>= f : Except ε β) = Except.error e := rfl

/-- C8: if the remote get-job call of refresh raises, a BackendError is
raised and the previously held record is left intact and unchanged; the
local record is replaced only when the fetch succeeds, and then it is
replaced wholesale. -/
theorem refresh_failure_preserves_record (job : JobsJobDef)
    (api : Except String JobsJobDef) :
    (∀ e : String, api = Except.error e →
      refresh job api =
        (job, some (PyErr.backendError ("To refresh job is failed.")))) ∧
    (∀ j : JobsJobDef, api = Except.ok j → refresh job api = (j, none)) := by
  constructor
  · intro e he; rw [he]; rfl
  · intro j hj; rw [hj]; rfl

theorem refresh_failure_preserves_record_witness :
    refresh { job_id := "j1", status := "running", job_info := { result := none } }
        (Except.error ("boom")) =
      ({ job_id := "j1", status := "running", job_info := { result := none } },
        some (PyErr.backendError ("To refresh job is failed."))) :=
  (refresh_failure_preserves_record _ _).1 ("boom") rfl

/-- C9: refreshing a job whose status is already terminal leaves the status
unchanged.  The hypothesis hstable is the service contract stated by the
spec glossary (a terminal status is one after which no further state
transition occurs), so a successful get_job on a terminal job reports the
same status; on a failed call the record is untouched anyway. -/
theorem refresh_terminal_status_unchanged (job : JobsJobDef)
    (api : Except String JobsJobDef)
    (hterm : job.status ∈ JOB_FINAL_STATUS)
    (hstable : ∀ j : JobsJobDef, api = Except.ok j → j.status = job.status) :
    (refresh job api).1.status = job.status := by
  cases api with
  | error e => rfl
  | ok j => exact hstable j rfl

theorem refresh_terminal_status_unchanged_witness :
    (refresh { job_id := "j1", status := "succeeded", job_info := { result := none } }
        (Except.ok { job_id := "j1", status := "succeeded", job_info := { result := none } })).1.status
      = "succeeded" :=
  refresh_terminal_status_unchanged _ _ (by decide)
    (fun j hj => by cases hj; rfl)

/-- C6: a shot count below one makes both sample_qasm and estimate_qasm
raise ValueError before any request body is built; any shot count of at
least one passes the check, so sample_qasm returns a request and
estimate_qasm returns one whenever the operator encodes. -/
theorem shots_validation (program : Sum String (List String)) (program2 : String)
    (operator : List (String × PyCoeff)) (device_id : String) (shots : Int)
    (name description : Option String)
    (ti si mi : Option (List (String × String))) (jt : Option String) :
    (shots ≤ 0 →
      sample_qasm program device_id shots name description ti si mi jt =
        Except.error (PyErr.valueError
          ("shots should be a positive integer.: " ++ toString shots)) ∧
      estimate_qasm program2 operator device_id shots name description ti si mi =
        Except.error (PyErr.valueError
          ("shots should be a positive integer.: " ++ toString shots))) ∧
    (1 ≤ shots →
      (∃ req, sample_qasm program device_id shots name description ti si mi jt =
        Except.ok req) ∧
      (∀ ops, encodeOperator operator = Except.ok ops →
        ∃ req, estimate_qasm program2 operator device_id shots name description ti si mi =
          Except.ok req)) := by
  constructor
  · intro hle
    have hn : ¬ shots ≥ 1 := by omega
    constructor
    · simp only [sample_qasm, if_pos hn]
    · simp only [estimate_qasm, if_pos hn]
  · intro hge
    have hn : ¬ ¬ shots ≥ 1 := by omega
    constructor
    · exact ⟨_, by simp only [sample_qasm, if_neg hn]; rfl⟩
    · intro ops hops
      exact ⟨_, by simp only [estimate_qasm, if_neg hn, hops, except_bind_ok]; rfl⟩

theorem shots_validation_witness :
    ((0 : Int) ≤ 0 ∧
      sample_qasm (Sum.inl ("OPENQASM 3;")) ("dev") 0 none none none none none none =
        Except.error (PyErr.valueError ("shots should be a positive integer.: 0"))) ∧
    ((1 : Int) ≤ 1 ∧
      ∃ req, sample_qasm (Sum.inl ("OPENQASM 3;")) ("dev") 1 none none none none none none =
        Except.ok req) :=
  ⟨⟨le_refl 0,
    ((shots_validation (Sum.inl ("OPENQASM 3;")) ("p") [] ("dev") 0 none none
        none none none none).1 (le_refl 0)).1⟩,
   ⟨le_refl 1,
    ((shots_validation (Sum.inl ("OPENQASM 3;")) ("p") [] ("dev") 1 none none
        none none none none).2 (le_refl 1)).1⟩⟩

theorem encodeOperator_ok_of_real (l : List (String × PyCoeff))
    (h : ∀ p re im, (p, PyCoeff.complexNum re im) ∈ l → im = 0) :
    encodeOperator l =
      Except.ok (l.map (fun e => { pauli := e.1, coeff := coeffReal e.2 })) := by
  induction l with
  | nil => rfl
  | cons a rest ih =>
    obtain ⟨p, c⟩ := a
    have hrest := ih (fun p1 re im hm => h p1 re im (List.mem_cons_of_mem _ hm))
    cases c with
    | real r =>
      simp only [encodeOperator, hrest, except_bind_ok, List.map_cons, coeffReal]
    | complexNum re im =>
      have him : im = 0 := h p re im (List.mem_cons_self _ _)
      subst him
      simp only [encodeOperator, ne_eq, not_true_eq_false, if_neg, hrest,
        except_bind_ok, List.map_cons, coeffReal, if_false]

theorem encodeOperator_error_of_complex (l : List (String × PyCoeff))
    (h : ∃ p re im, (p, PyCoeff.complexNum re im) ∈ l ∧ im ≠ 0) :
    ∃ m, encodeOperator l = Except.error (PyErr.valueError m) := by
  induction l with
  | nil =>
    obtain ⟨p, re, im, hm, _⟩ := h
    simp at hm
  | cons a rest ih =>
    obtain ⟨p, re, im, hm, him⟩ := h
    obtain ⟨a1, a2⟩ := a
    cases a2 with
    | real r =>
      have hmem : (p, PyCoeff.complexNum re im) ∈ rest := by
        rcases List.mem_cons.mp hm with heq | hmem
        · exact absurd heq (by simp)
        · exact hmem
      obtain ⟨m, hm2⟩ := ih ⟨p, re, im, hmem, him⟩
      exact ⟨m, by simp only [encodeOperator, hm2, except_bind_error]⟩
    | complexNum re2 im2 =>
      by_cases h2 : im2 = 0
      · subst h2
        have hmem : (p, PyCoeff.complexNum re im) ∈ rest := by
          rcases List.mem_cons.mp hm with heq | hmem
          · exfalso
            have : re = re2 ∧ im = 0 := by
              have := heq
              simp only [Prod.mk.injEq, PyCoeff.complexNum.injEq] at this
              exact ⟨this.2.1, this.2.2⟩
            exact him this.2
          · exact hmem
        obtain ⟨m, hm2⟩ := ih ⟨p, re, im, hmem, him⟩
        refine ⟨m, ?_⟩
        simp only [encodeOperator, ne_eq, not_true_eq_false, if_neg, if_false,
          hm2, except_bind_error]
      · exact ⟨_, by simp only [encodeOperator, ne_eq, if_pos h2]; rfl⟩

/-- C5: estimate_qasm raises ValueError and submits nothing when any
operator coefficient has a non-zero imaginary part; otherwise every
(pauli, coefficient) pair is encoded into the request operator list with
the label as string and the real coefficient.  An error value of the model
means the request body was never built. -/
theorem estimate_operator_validation (program : String)
    (operator : List (String × PyCoeff)) (device_id : String) (shots : Int)
    (name description : Option String)
    (ti si mi : Option (List (String × String))) (hshots : 1 ≤ shots) :
    ((∃ p re im, (p, PyCoeff.complexNum re im) ∈ operator ∧ im ≠ 0) →
      ∃ m, estimate_qasm program operator device_id shots name description ti si mi =
        Except.error (PyErr.valueError m)) ∧
    ((∀ p re im, (p, PyCoeff.complexNum re im) ∈ operator → im = 0) →
      estimate_qasm program operator device_id shots name description ti si mi =
        Except.ok
          { name := name, description := description, device_id := device_id,
            job_type := "estimation", program := Sum.inr [program],
            operator := some (operator.map
              (fun e => { pauli := e.1, coeff := coeffReal e.2 })),
            transpiler_info := ti.getD [], simulator_info := si.getD [],
            mitigation_info := mi.getD [], shots := shots }) := by
  have hn : ¬ ¬ shots ≥ 1 := by omega
  constructor
  · intro hbad
    obtain ⟨m, hm⟩ := encodeOperator_error_of_complex operator hbad
    exact ⟨m, by simp only [estimate_qasm, if_neg hn, hm, except_bind_error]⟩
  · intro hgood
    have henc := encodeOperator_ok_of_real operator hgood
    simp only [estimate_qasm, if_neg hn, henc, except_bind_ok]

theorem estimate_operator_validation_witness :
    ∃ m, estimate_qasm ("q") [(("X0"), PyCoeff.complexNum 1 2)] ("dev") 1000
        none none none none none =
      Except.error (PyErr.valueError m) :=
  (estimate_operator_validation ("q") [(("X0"), PyCoeff.complexNum 1 2)] ("dev")
      1000 none none none none none (by norm_num)).1
    ⟨("X0"), 1, 2, List.mem_cons_self _ _, by norm_num⟩

theorem string_data_append (a b : String) : (a ++ b).data = a.data ++ b.data := rfl

theorem take_append_left {α : Type} (l1 l2 : List α) :
    ∀ n, n ≤ l1.length → (l1 ++ l2).take n = l1.take n := by
  induction l1 with
  | nil =>
    intro n h
    have h0 : n = 0 := Nat.le_zero.mp h
    subst h0
    simp
  | cons a tl ih =>
    intro n h
    cases n with
    | zero => rfl
    | succ m =>
      simp only [List.cons_append, List.take_succ_cons]
      rw [ih m (by simpa using h)]

theorem take13_msg (p t s : String) (h : 13 ≤ p.data.length) :
    ((p ++ t ++ s).data).take 13 = p.data.take 13 := by
  have h2 : 13 ≤ (p.data ++ t.data).length := by
    rw [List.length_append]; omega
  rw [string_data_append, string_data_append, take_append_left _ _ 13 h2,
    take_append_left _ _ 13 h]

/-- C4: the storage extraction accepts exactly the byte strings forming a
valid zip archive with exactly one entry whose content parses as JSON with
an object root, returning that mapping; every other input fails with an
OqtopusStorageError, with messages that distinguish an invalid zip, a
wrong entry count (zero or two or more), invalid JSON, and a JSON root
that is not an object. -/
theorem extract_zip_object_cases
    (zipParse : String → Option (List (String × String)))
    (jsonParse : String → Option JVal) (zip_bytes : String) :
    (zipParse zip_bytes = none →
      extract_zip_object zipParse jsonParse zip_bytes =
        Except.error { msg := "Invalid ZIP file" }) ∧
    (∀ entries, zipParse zip_bytes = some entries → entries.length ≠ 1 →
      extract_zip_object zipParse jsonParse zip_bytes =
        Except.error { msg := ("Expected one file in single ZIP archive, but found "
          ++ toString entries.length ++ ".") }) ∧
    (∀ nm content, zipParse zip_bytes = some [(nm, content)] →
      jsonParse content = none →
      extract_zip_object zipParse jsonParse zip_bytes =
        Except.error { msg := "Invalid JSON in ZIP file" }) ∧
    (∀ nm content v, zipParse zip_bytes = some [(nm, content)] →
      jsonParse content = some v → (∀ fs, v ≠ JVal.obj fs) →
      extract_zip_object zipParse jsonParse zip_bytes =
        Except.error { msg := ("Expected JSON root to be an object (dict) but got "
          ++ v.typeName ++ ".") }) ∧
    (∀ nm content fs, zipParse zip_bytes = some [(nm, content)] →
      jsonParse content = some (JVal.obj fs) →
      extract_zip_object zipParse jsonParse zip_bytes = Except.ok fs) ∧
    (∀ (n : Nat) (v : JVal),
      ("Invalid ZIP file" : String) ≠ "Invalid JSON in ZIP file" ∧
      ("Invalid ZIP file" : String) ≠
        "Expected one file in single ZIP archive, but found " ++ toString n ++ "." ∧
      ("Invalid ZIP file" : String) ≠
        "Expected JSON root to be an object (dict) but got " ++ v.typeName ++ "." ∧
      ("Invalid JSON in ZIP file" : String) ≠
        "Expected one file in single ZIP archive, but found " ++ toString n ++ "." ∧
      ("Invalid JSON in ZIP file" : String) ≠
        "Expected JSON root to be an object (dict) but got " ++ v.typeName ++ "." ∧
      ("Expected one file in single ZIP archive, but found " ++ toString n ++ "."
          : String) ≠
        "Expected JSON root to be an object (dict) but got " ++ v.typeName ++ ".") := by
  refine ⟨?_, ?_, ?_, ?_, ?_, ?_⟩
  · intro hz
    simp only [extract_zip_object, hz]
  · intro entries hz hlen
    match entries with
    | [] => simp only [extract_zip_object, hz]
    | [e] => exact absurd rfl hlen
    | e1 :: e2 :: tl => simp only [extract_zip_object, hz]
  · intro nm content hz hj
    simp only [extract_zip_object, hz, hj]
  · intro nm content v hz hj hobj
    match v with
    | JVal.null => simp only [extract_zip_object, hz, hj]
    | JVal.bool b => simp only [extract_zip_object, hz, hj]
    | JVal.intNum k => simp only [extract_zip_object, hz, hj]
    | JVal.str s => simp only [extract_zip_object, hz, hj]
    | JVal.arr xs => simp only [extract_zip_object, hz, hj]
    | JVal.obj fs => exact absurd rfl (hobj fs)
  · intro nm content fs hz hj
    simp only [extract_zip_object, hz, hj]
  · intro n v
    have hcount : ∀ w : String,
        ("Expected one file in single ZIP archive, but found "
            ++ w ++ "." : String).data.take 13 =
          ("Expected one ").data := by
      intro w
      rw [take13_msg _ _ _ (by decide)]
      decide
    have hshape : ∀ w : String,
        ("Expected JSON root to be an object (dict) but got "
            ++ w ++ "." : String).data.take 13 =
          ("Expected JSON").data := by
      intro w
      rw [take13_msg _ _ _ (by decide)]
      decide
    refine ⟨by decide, ?_, ?_, ?_, ?_, ?_⟩
    · intro h
      have h13 := congrArg (fun s : String => s.data.take 13) h
      simp only [] at h13
      rw [hcount (toString n)] at h13
      exact absurd h13 (by decide)
    · intro h
      have h13 := congrArg (fun s : String => s.data.take 13) h
      simp only [] at h13
      rw [hshape v.typeName] at h13
      exact absurd h13 (by decide)
    · intro h
      have h13 := congrArg (fun s : String => s.data.take 13) h
      simp only [] at h13
      rw [hcount (toString n)] at h13
      exact absurd h13 (by decide)
    · intro h
      have h13 := congrArg (fun s : String => s.data.take 13) h
      simp only [] at h13
      rw [hshape v.typeName] at h13
      exact absurd h13 (by decide)
    · intro h
      have h13 := congrArg (fun s : String => s.data.take 13) h
      simp only [] at h13
      rw [hcount (toString n), hshape v.typeName] at h13
      exact absurd h13 (by decide)

theorem extract_zip_object_cases_witness :
    extract_zip_object (fun _ => none) (fun _ => none) ("junk") =
      Except.error { msg := "Invalid ZIP file" } :=
  (extract_zip_object_cases (fun _ => none) (fun _ => none) ("junk")).1 rfl

theorem samplingResultInit_none (cs : List (SKey × Int)) :
    samplingResultInit { counts := some cs, divided_counts := none } =
      Except.ok { counts := cs, divided_counts := none } := rfl

theorem samplingResultInit_empty (cs : List (SKey × Int)) :
    samplingResultInit { counts := some cs, divided_counts := some [] } =
      Except.ok { counts := cs, divided_counts := none } := rfl

theorem samplingResultInit_cons (cs : List (SKey × Int))
    (e : SKey × List (SKey × Int)) (tl : List (SKey × List (SKey × Int))) :
    samplingResultInit { counts := some cs, divided_counts := some (e :: tl) } =
      match initDivided (e :: tl) with
      | Except.ok d2 => Except.ok { counts := cs, divided_counts := some d2 }
      | Except.error e0 => Except.error e0 := by
  cases hid : initDivided (e :: tl) with
  | ok d2 =>
    simp [samplingResultInit, hid, except_bind_ok, except_bind_error]
  | error e0 =>
    simp [samplingResultInit, hid, except_bind_ok, except_bind_error]

theorem initInnerEntry_ok (e : SKey × Int) (x : Int × Int) :
    initInnerEntry e = Except.ok x ↔
      intOfKey e.1 = Except.ok x.1 ∧ e.2 = x.2 := by
  obtain ⟨x1, x2⟩ := x
  cases hk : intOfKey e.1 with
  | error e0 =>
    simp only [initInnerEntry, hk, except_bind_error]
    constructor
    · intro h; cases h
    · intro h; cases h.1
  | ok k2 =>
    simp only [initInnerEntry, hk, except_bind_ok, Except.ok.injEq,
      Prod.mk.injEq]

/-- C10: a result dict passed directly to the OqtopusSamplingResult
constructor keeps its counts keys unchanged (no base-2 decoding of
binary-string keys), while each divided_counts inner key is converted with
base-10 int(bits); in particular raw counts key "10" stays "10" and the
divided_counts key "10" becomes the integer 10, differing from the base-2
decoding (which yields 2) performed by OqtopusSamplingJob.result. -/
theorem sampling_result_init_behaviour :
    (∀ (r : ResultDict) (cs : List (SKey × Int)) (st : OqtopusSamplingResultState),
      r.counts = some cs → samplingResultInit r = Except.ok st → st.counts = cs) ∧
    (∀ (r : ResultDict) (st : OqtopusSamplingResultState)
        (d : List (SKey × List (SKey × Int))),
      samplingResultInit r = Except.ok st → r.divided_counts = some d → d ≠ [] →
      ∃ d2, st.divided_counts = some d2 ∧
        List.Forall₂ (fun e a => initDividedEntry e = Except.ok a) d d2) ∧
    (∀ (k : SKey) (m : List (SKey × Int)) (i : SKey) (m2 : List (Int × Int)),
      initDividedEntry (k, m) = Except.ok (i, m2) →
      i = k ∧ List.Forall₂
        (fun e x => intOfKey e.1 = Except.ok x.1 ∧ e.2 = x.2) m m2) ∧
    (intOfKey (SKey.str ("10")) = Except.ok 10 ∧
      decodeKey (SKey.str ("10")) = Except.ok 2 ∧ (10 : Int) ≠ 2) ∧
    (samplingResultInit
        { counts := some [(SKey.str ("10"), 490)],
          divided_counts := some [(SKey.str ("0"), [(SKey.str ("10"), 490)])] } =
      Except.ok
        { counts := [(SKey.str ("10"), 490)],
          divided_counts := some [(SKey.str ("0"), [((10 : Int), (490 : Int))])] }) := by
  refine ⟨?_, ?_, ?_, ⟨rfl, rfl, by norm_num⟩, by rfl⟩
  · intro r cs st hc h
    obtain ⟨rc, rd⟩ := r
    simp only at hc
    subst hc
    cases rd with
    | none =>
      rw [samplingResultInit_none] at h
      cases h
      rfl
    | some d =>
      cases d with
      | nil =>
        rw [samplingResultInit_empty] at h
        cases h
        rfl
      | cons e tl =>
        rw [samplingResultInit_cons] at h
        cases hid : initDivided (e :: tl) with
        | error e0 => rw [hid] at h; cases h
        | ok d2 => rw [hid] at h; cases h; rfl
  · intro r st d h hd hne
    obtain ⟨rc, rd⟩ := r
    simp only at hd
    subst hd
    cases rc with
    | none =>
      have h2 : (Except.error (PyErr.valueError ("counts does not exist in result"))
          : Except PyErr OqtopusSamplingResultState) = Except.ok st := h
      cases h2
    | some cs =>
      cases d with
      | nil => exact absurd rfl hne
      | cons e tl =>
        rw [samplingResultInit_cons] at h
        cases hid : initDivided (e :: tl) with
        | error e0 => rw [hid] at h; cases h
        | ok d2 =>
          rw [hid] at h
          cases h
          exact ⟨d2, rfl, mapExcept_forall2 initDividedEntry _ _ hid⟩
  · intro k m i m2 h
    cases him : initInner m with
    | error e0 =>
      rw [initDividedEntry] at h
      rw [him] at h
      simp only [except_bind_error] at h
      cases h
    | ok mm =>
      rw [initDividedEntry] at h
      rw [him] at h
      simp only [except_bind_ok, Except.ok.injEq, Prod.mk.injEq] at h
      obtain ⟨hik, hmm⟩ := h
      subst hmm
      refine ⟨hik.symm, ?_⟩
      have hf := mapExcept_forall2 initInnerEntry m mm him
      exact hf.imp (fun a b hab => (initInnerEntry_ok a b).mp hab)

theorem sampling_result_init_behaviour_witness :
    ∃ st : OqtopusSamplingResultState,
      samplingResultInit
          { counts := some [(SKey.str ("10"), 490)], divided_counts := none } =
        Except.ok st ∧ st.counts = [(SKey.str ("10"), 490)] :=
  ⟨{ counts := [(SKey.str ("10"), 490)], divided_counts := none },
    rfl,
    sampling_result_init_behaviour.1
      { counts := some [(SKey.str ("10"), 490)], divided_counts := none }
      [(SKey.str ("10"), 490)]
      { counts := [(SKey.str ("10"), 490)], divided_counts := none } rfl rfl⟩

/-- C7: a converted program text containing "measure" is returned
unchanged; one without it gets a bit register declaration sized to the
qubit count spliced in immediately after the semicolon that terminates the
qubit declaration (the first ";" at or after the first "qubit"), and a
measure-all statement appended at the end. -/
theorem convert_measure_patch (qasm : String) (n : Nat) :
    ((findSub ("measure").data qasm.data 0).isSome = true →
      convert_to_qasm_str_with_measure qasm n = qasm) ∧
    ((findSub ("measure").data qasm.data 0).isSome = false →
      ∀ qi si, findSub ("qubit").data qasm.data 0 = some qi →
        findSub [';'] (qasm.data.drop qi) qi = some si →
        convert_to_qasm_str_with_measure qasm n =
          String.mk (qasm.data.take (si + 1))
            ++ "\nbit[" ++ toString n ++ "] c;"
            ++ String.mk (qasm.data.drop (si + 1))
            ++ "\nc = measure q;") ∧
    ((findSub ("measure").data qasm.data 0).isSome = false →
      ∃ s, convert_to_qasm_str_with_measure qasm n = s ++ "\nc = measure q;") := by
  refine ⟨?_, ?_, ?_⟩
  · intro h
    simp only [convert_to_qasm_str_with_measure, h, if_true]
  · intro h qi si hqi hsi
    simp only [convert_to_qasm_str_with_measure, h, Bool.false_eq_true,
      if_false, hqi, hsi]
  · intro h
    simp only [convert_to_qasm_str_with_measure, h, Bool.false_eq_true, if_false]
    exact ⟨_, rfl⟩

theorem convert_measure_patch_witness :
    convert_to_qasm_str_with_measure ("OPENQASM 3;\nqubit[2] q;\nh q[0];") 2 =
      "OPENQASM 3;\nqubit[2] q;\nbit[2] c;\nh q[0];\nc = measure q;" := by
  have h := (convert_measure_patch ("OPENQASM 3;\nqubit[2] q;\nh q[0];") 2).2.1
    (by rfl) 12 22 (by rfl) (by rfl)
  rw [h]
  rfl

theorem resultWaitPhase_timeout (job0 : JobsJobDef) (tr : String)
    (hnt : job0.status ∉ JOB_FINAL_STATUS) :
    resultWaitPhase job0 none tr = Except.error (PyErr.backendError
      ("Timeout occurred after " ++ tr ++ " seconds.")) := by
  simp only [resultWaitPhase, if_neg hnt]

theorem resultWaitPhase_failed (job0 : JobsJobDef) (wfc : Option JobsJobDef)
    (tr : String) (hfc : job0.status = "failed" ∨ job0.status = "cancelled") :
    resultWaitPhase job0 wfc tr = Except.error (PyErr.backendError
      ("Job ended with status " ++ job0.status ++ ".")) := by
  have hmem : job0.status ∈ JOB_FINAL_STATUS := by
    rcases hfc with h | h <;> rw [h] <;> decide
  simp only [resultWaitPhase, if_pos hmem, resultStatusCheck, if_pos hfc]

theorem resultWaitPhase_succeeded (job0 : JobsJobDef) (wfc : Option JobsJobDef)
    (tr : String) (hs : job0.status = "succeeded") :
    resultWaitPhase job0 wfc tr = Except.ok job0 := by
  have hmem : job0.status ∈ JOB_FINAL_STATUS := by rw [hs]; decide
  have hnf : ¬ (job0.status = "failed" ∨ job0.status = "cancelled") := by
    rw [hs]; decide
  simp only [resultWaitPhase, if_pos hmem, resultStatusCheck, if_neg hnf]

theorem initInner_int_keys (l : List (Int × Int)) :
    initInner (l.map (fun x => (SKey.int x.1, x.2))) = Except.ok l := by
  induction l with
  | nil => rfl
  | cons a tl ih =>
    obtain ⟨a1, a2⟩ := a
    simp only [List.map_cons]
    show mapExcept initInnerEntry _ = _
    rw [mapExcept]
    rw [show initInnerEntry (SKey.int a1, a2) = Except.ok (a1, a2) from rfl]
    rw [show mapExcept initInnerEntry
      (tl.map (fun x => (SKey.int x.1, x.2))) = Except.ok tl from ih]

theorem initDivided_int_keys (d : List (Int × List (Int × Int))) :
    initDivided (d.map (fun e =>
        (SKey.int e.1, e.2.map (fun x => (SKey.int x.1, x.2))))) =
      Except.ok (d.map (fun e => (SKey.int e.1, e.2))) := by
  induction d with
  | nil => rfl
  | cons a tl ih =>
    obtain ⟨i, m⟩ := a
    simp only [List.map_cons]
    show mapExcept initDividedEntry _ = _
    rw [mapExcept]
    have he : initDividedEntry (SKey.int i, m.map (fun x => (SKey.int x.1, x.2))) =
        Except.ok (SKey.int i, m) := by
      simp only [initDividedEntry, initInner_int_keys, except_bind_ok]
    rw [he]
    rw [show mapExcept initDividedEntry
      (tl.map (fun e => (SKey.int e.1, e.2.map (fun x => (SKey.int x.1, x.2))))) =
      Except.ok (tl.map (fun e => (SKey.int e.1, e.2))) from ih]

theorem samplingResultInit_decoded (d : DecodedSampling) :
    ∃ st, samplingResultInit (decodedToResultDict d) = Except.ok st := by
  obtain ⟨cs, dv⟩ := d
  cases dv with
  | none => exact ⟨_, rfl⟩
  | some dl =>
    cases dl with
    | nil => exact ⟨_, rfl⟩
    | cons a tl =>
      obtain ⟨i, m⟩ := a
      refine ⟨⟨cs.map (fun x => (SKey.int x.1, x.2)),
        some ((SKey.int i, m) :: tl.map (fun e => (SKey.int e.1, e.2)))⟩, ?_⟩
      have hmap : decodedToResultDict ⟨cs, some ((i, m) :: tl)⟩ =
          { counts := some (cs.map (fun x => (SKey.int x.1, x.2))),
            divided_counts := some
              ((SKey.int i, m.map (fun x => (SKey.int x.1, x.2))) ::
                tl.map (fun e =>
                  (SKey.int e.1, e.2.map (fun x => (SKey.int x.1, x.2))))) } := rfl
      rw [hmap, samplingResultInit_cons]
      have hd : initDivided
          ((SKey.int i, m.map (fun x => (SKey.int x.1, x.2))) ::
            tl.map (fun e =>
              (SKey.int e.1, e.2.map (fun x => (SKey.int x.1, x.2))))) =
          Except.ok ((SKey.int i, m) :: tl.map (fun e => (SKey.int e.1, e.2))) := by
        have h2 := initDivided_int_keys ((i, m) :: tl)
        simpa using h2
      rw [hd]

/-- C2: result() raises BackendError when wait_for_completion returns the
timeout sentinel, raises BackendError whose message carries the status for
a terminal status of failed or cancelled (a "failed" record makes the
message mention "failed"), and in the succeeded case decodes and returns
the typed result value without raising, for both the sampling and the
estimation job. -/
theorem result_error_handling
    (parseCounts : String → Option (List (SKey × Int)))
    (parseDivided : String → Option (List (SKey × List (SKey × Int))))
    (job0 : JobsJobDef) (wfc : Option JobsJobDef) (tr : String) :
    (job0.status ∉ JOB_FINAL_STATUS → wfc = none →
      samplingJobResult parseCounts parseDivided job0 wfc tr =
        Except.error (PyErr.backendError
          ("Timeout occurred after " ++ tr ++ " seconds.")) ∧
      estimationJobResult job0 wfc tr =
        Except.error (PyErr.backendError
          ("Timeout occurred after " ++ tr ++ " seconds."))) ∧
    (job0.status = "failed" ∨ job0.status = "cancelled" →
      samplingJobResult parseCounts parseDivided job0 wfc tr =
        Except.error (PyErr.backendError
          ("Job ended with status " ++ job0.status ++ ".")) ∧
      estimationJobResult job0 wfc tr =
        Except.error (PyErr.backendError
          ("Job ended with status " ++ job0.status ++ "."))) ∧
    (job0.status = "failed" →
      ∃ m, samplingJobResult parseCounts parseDivided job0 wfc tr =
        Except.error (PyErr.backendError m) ∧
        List.IsInfix ("failed").data m.data) ∧
    (job0.status = "succeeded" →
      ∀ rs payload decoded, job0.job_info.result = some rs →
        rs.sampling = some payload →
        decodeSamplingPayload parseCounts parseDivided payload =
          Except.ok decoded →
        ∃ st, samplingJobResult parseCounts parseDivided job0 wfc tr =
          Except.ok st) ∧
    (job0.status = "succeeded" →
      ∀ rs ed, job0.job_info.result = some rs → rs.estimation = some ed →
        estimationJobResult job0 wfc tr = Except.ok { result := ed }) := by
  refine ⟨?_, ?_, ?_, ?_, ?_⟩
  · intro hnt hw
    subst hw
    have hwp := resultWaitPhase_timeout job0 tr hnt
    constructor
    · simp only [samplingJobResult, hwp, except_bind_error]
    · simp only [estimationJobResult, hwp, except_bind_error]
  · intro hfc
    have hwp := resultWaitPhase_failed job0 wfc tr hfc
    constructor
    · simp only [samplingJobResult, hwp, except_bind_error]
    · simp only [estimationJobResult, hwp, except_bind_error]
  · intro hf
    refine ⟨"Job ended with status " ++ job0.status ++ ".", ?_, ?_⟩
    · have hwp := resultWaitPhase_failed job0 wfc tr (Or.inl hf)
      simp only [samplingJobResult, hwp, except_bind_error]
    · rw [hf]
      exact ⟨("Job ended with status ").data, (".").data, rfl⟩
  · intro hs rs payload decoded hrs hp hdec
    have hwp := resultWaitPhase_succeeded job0 wfc tr hs
    obtain ⟨st, hst⟩ := samplingResultInit_decoded decoded
    refine ⟨st, ?_⟩
    simp only [samplingJobResult, hwp, except_bind_ok, hrs, hp, hdec, hst]
  · intro hs rs ed hrs hed
    have hwp := resultWaitPhase_succeeded job0 wfc tr hs
    simp only [estimationJobResult, hwp, except_bind_ok, hrs, hed]

theorem result_error_handling_witness :
    samplingJobResult (fun _ => none) (fun _ => none)
        { job_id := "j1", status := "failed", job_info := { result := none } }
        none ("10") =
      Except.error (PyErr.backendError ("Job ended with status failed.")) := by
  have h := ((result_error_handling (fun _ => none) (fun _ => none)
      { job_id := "j1", status := "failed", job_info := { result := none } }
      none ("10")).2.1 (Or.inl rfl)).1
  rw [h]
  rfl

theorem waitLoop_succ (poll : Nat → JobsJobDef) (elapsed : Nat → ℚ) (T : ℚ)
    (fuel j : Nat) :
    waitLoop poll elapsed (some T) (fuel + 1) j =
      if (poll j).status ∈ JOB_FINAL_STATUS then some (some (poll j))
      else if T ≤ elapsed j then some none
      else waitLoop poll elapsed (some T) fuel (j + 1) := rfl

theorem waitLoop_reaches_timeout (poll : Nat → JobsJobDef) (elapsed : Nat → ℚ)
    (T : ℚ) (hnt : ∀ i, (poll i).status ∉ JOB_FINAL_STATUS) :
    ∀ (n j : Nat), T ≤ elapsed (j + n) →
      ∃ fuel, waitLoop poll elapsed (some T) fuel j = some none := by
  intro n
  induction n with
  | zero =>
    intro j hj
    refine ⟨1, ?_⟩
    rw [waitLoop_succ, if_neg (hnt j), if_pos (by simpa using hj)]
  | succ n ih =>
    intro j hj
    by_cases hTj : T ≤ elapsed j
    · exact ⟨1, by rw [waitLoop_succ, if_neg (hnt j), if_pos hTj]⟩
    · obtain ⟨fuel, hf⟩ := ih (j + 1)
        (by rw [show j + 1 + n = j + (n + 1) by omega]; exact hj)
      refine ⟨fuel + 1, ?_⟩
      rw [waitLoop_succ, if_neg (hnt j), if_neg hTj]
      exact hf

theorem waitLoop_none_implies (poll : Nat → JobsJobDef) (elapsed : Nat → ℚ)
    (T : ℚ) :
    ∀ fuel j, waitLoop poll elapsed (some T) fuel j = some none →
      ∃ i, T ≤ elapsed i := by
  intro fuel
  induction fuel with
  | zero => intro j h; cases h
  | succ n ih =>
    intro j h
    rw [waitLoop_succ] at h
    by_cases hp : (poll j).status ∈ JOB_FINAL_STATUS
    · rw [if_pos hp] at h
      simp at h
    · rw [if_neg hp] at h
      by_cases hT : T ≤ elapsed j
      · exact ⟨j, hT⟩
      · rw [if_neg hT] at h
        exact ih (j + 1) h

/-- C1: the polling loop refreshes first, checks the terminal set, then the
timeout, then sleeps and repeats with its fixed interval.  Against a
service whose polled status never becomes terminal, a run with timeout T
returns the timeout sentinel (modelled as some none) for some finite fuel
once the elapsed time observed at a check reaches T, and the sentinel is
returned only when some observed elapsed time has reached T; when the
first refreshed status is terminal, the current record is returned
instead.  poll k is the record of the k-th refresh and elapsed k the
elapsed wall-clock time at the k-th timeout check. -/
theorem wait_for_completion_timeout_law (poll : Nat → JobsJobDef)
    (elapsed : Nat → ℚ) (T : ℚ) (k : Nat) :
    ((∀ i, (poll i).status ∉ JOB_FINAL_STATUS) → T ≤ elapsed k →
      ∃ fuel, wait_for_completion poll elapsed (some T) fuel = some none) ∧
    ((poll 0).status ∈ JOB_FINAL_STATUS →
      ∀ fuel, wait_for_completion poll elapsed (some T) (fuel + 1) =
        some (some (poll 0))) ∧
    (∀ fuel, wait_for_completion poll elapsed (some T) fuel = some none →
      ∃ i, T ≤ elapsed i) := by
  refine ⟨?_, ?_, ?_⟩
  · intro hnt hk
    exact waitLoop_reaches_timeout poll elapsed T hnt k 0 (by simpa using hk)
  · intro hp fuel
    rw [wait_for_completion, waitLoop_succ, if_pos hp]
  · intro fuel h
    exact waitLoop_none_implies poll elapsed T fuel 0 h

theorem wait_for_completion_timeout_law_witness :
    ∃ fuel, wait_for_completion
        (fun _ => ⟨"j1", "running", ⟨none⟩⟩)
        (fun i => (i : ℚ)) (some 2) fuel = some none :=
  (wait_for_completion_timeout_law
      (fun _ => ⟨"j1", "running", ⟨none⟩⟩)
      (fun i => (i : ℚ)) 2 2).1
    (fun i => by decide) (by norm_num)

theorem decodeEntry_ok (e : SKey × Int) (x : Int × Int) :
    decodeEntry e = Except.ok x ↔
      decodeKey e.1 = Except.ok x.1 ∧ e.2 = x.2 := by
  obtain ⟨x1, x2⟩ := x
  cases hk : decodeKey e.1 with
  | error e0 =>
    simp only [decodeEntry, hk, except_bind_error]
    constructor
    · intro h; cases h
    · intro h; cases h.1
  | ok k2 =>
    simp only [decodeEntry, hk, except_bind_ok, Except.ok.injEq, Prod.mk.injEq]

theorem decodeDividedEntry_ok (e : SKey × List (SKey × Int))
    (a : Int × List (Int × Int)) :
    decodeDividedEntry e = Except.ok a ↔
      intOfKey e.1 = Except.ok a.1 ∧ decodeEntries e.2 = Except.ok a.2 := by
  obtain ⟨a1, a2⟩ := a
  cases hk : intOfKey e.1 with
  | error e0 =>
    simp only [decodeDividedEntry, hk, except_bind_error]
    constructor
    · intro h; cases h
    · intro h; cases h.1
  | ok i =>
    cases hm : decodeEntries e.2 with
    | error e0 =>
      simp only [decodeDividedEntry, hk, hm, except_bind_ok, except_bind_error]
      constructor
      · intro h; cases h
      · intro h; cases h.2
    | ok mm =>
      simp only [decodeDividedEntry, hk, hm, except_bind_ok, except_bind_error,
        Except.ok.injEq, Prod.mk.injEq]

theorem decodeKey_str_ok (s : String) (v : Int)
    (h : decodeKey (SKey.str s) = Except.ok v) :
    ∃ a : Nat, intBase2 s = some a ∧ (a : Int) = v := by
  cases h2 : intBase2 s with
  | none => rw [decodeKey, h2] at h; cases h
  | some a =>
    rw [decodeKey, h2] at h
    exact ⟨a, rfl, Except.ok.inj h⟩

/-- C3: base-2 decoding of binary-string count keys: "00","01","10","11"
decode to 0,1,2,3, integer keys pass through unchanged, decoding is
injective over keys of the same declared bit width, the same decoding is
applied whether counts arrive as a JSON-encoded string or as a parsed
mapping, and every divided_counts entry gets its string index converted
to an integer key and its inner mapping decoded the same way; the spec
scenario counts mapping decodes exactly. -/
theorem sampling_counts_decoding :
    (decodeKey (SKey.str ("00")) = Except.ok 0 ∧
      decodeKey (SKey.str ("01")) = Except.ok 1 ∧
      decodeKey (SKey.str ("10")) = Except.ok 2 ∧
      decodeKey (SKey.str ("11")) = Except.ok 3) ∧
    (∀ n : Int, decodeKey (SKey.int n) = Except.ok n) ∧
    (∀ (s t : String) (v : Int), s.data.length = t.data.length →
      decodeKey (SKey.str s) = Except.ok v →
      decodeKey (SKey.str t) = Except.ok v → s = t) ∧
    (∀ (parseCounts : String → Option (List (SKey × Int)))
        (parseDivided : String → Option (List (SKey × List (SKey × Int))))
        (s : String) (m : List (SKey × Int)) (dv : Option DividedRaw),
      parseCounts s = some m →
      decodeSamplingPayload parseCounts parseDivided
          { counts := some (Sum.inl s), divided_counts := dv } =
        decodeSamplingPayload parseCounts parseDivided
          { counts := some (Sum.inr m), divided_counts := dv }) ∧
    (∀ (m : List (SKey × Int)) (m2 : List (Int × Int)),
      decodeEntries m = Except.ok m2 →
      List.Forall₂ (fun e x => decodeKey e.1 = Except.ok x.1 ∧ e.2 = x.2) m m2) ∧
    (∀ (d : List (SKey × List (SKey × Int)))
        (d2 : List (Int × List (Int × Int))),
      decodeDivided d = Except.ok d2 →
      List.Forall₂ (fun e a => intOfKey e.1 = Except.ok a.1 ∧
        decodeEntries e.2 = Except.ok a.2) d d2) ∧
    (decodeEntries [(SKey.str ("00"), 490), (SKey.str ("01"), 10),
        (SKey.str ("10"), 20), (SKey.str ("11"), 480)] =
      Except.ok [(0, 490), (1, 10), (2, 20), (3, 480)]) := by
  refine ⟨⟨rfl, rfl, rfl, rfl⟩, fun n => rfl, ?_, ?_, ?_, ?_, rfl⟩
  · intro s t v hlen hs ht
    obtain ⟨a, ha, hav⟩ := decodeKey_str_ok s v hs
    obtain ⟨b, hb, hbv⟩ := decodeKey_str_ok t v ht
    have hab : a = b := by
      have := hav.trans hbv.symm
      exact_mod_cast this
    subst hab
    rw [intBase2] at ha hb
    by_cases hse : s.data.isEmpty
    · rw [if_pos hse] at ha; cases ha
    · by_cases hte : t.data.isEmpty
      · rw [if_pos hte] at hb; cases hb
      · rw [if_neg hse] at ha
        rw [if_neg hte] at hb
        have hd := binValAux_inj s.data t.data hlen a ha hb
        cases s
        cases t
        exact congrArg String.mk (by simpa using hd)
  · intro parseCounts parseDivided s m dv hpc
    simp only [decodeSamplingPayload, hpc]
  · intro m m2 h
    have hf := mapExcept_forall2 decodeEntry m m2 h
    exact hf.imp (fun a b hab => (decodeEntry_ok a b).mp hab)
  · intro d d2 h
    have hf := mapExcept_forall2 decodeDividedEntry d d2 h
    exact hf.imp (fun a b hab => (decodeDividedEntry_ok a b).mp hab)

theorem sampling_counts_decoding_witness :
    ("10" : String) = "10" ∧
    decodeSamplingPayload (fun _ => some [(SKey.str ("00"), 490)])
        (fun _ => none) { counts := some (Sum.inl ("x")), divided_counts := none } =
      decodeSamplingPayload (fun _ => some [(SKey.str ("00"), 490)])
        (fun _ => none)
        { counts := some (Sum.inr [(SKey.str ("00"), 490)]), divided_counts := none } :=
  ⟨sampling_counts_decoding.2.2.1 ("10") ("10") 2 rfl rfl rfl,
    sampling_counts_decoding.2.2.2.1 (fun _ => some [(SKey.str ("00"), 490)])
      (fun _ => none) ("x") [(SKey.str ("00"), 490)] none rfl⟩
